import Mathlib

/-!
Verification of the SecureAttend attendance system.

Shallow embedding of the core algorithms of the repository:
* `LivenessDetector.detect_liveness` (src/liveness_detector.py)
* `AttendanceTracker.update_detection` (src/gui_application.py)
* `EmotionDetector.calculate_engagement_score` (src/emotion_detector.py)
* `Block` / `Blockchain` mining and validation (src/blockchain.py)
* `DatabaseManager.mark_attendance` and the table schemas (src/database_manager.py)
* the per-frame attendance-marking path of `SecureAttendApp.start_attendance`
  (src/gui_application.py)

Python floats are modelled as exact rationals; Python `round(x, n)` is
modelled as round-half-to-even at `n` decimal digits; SHA-256 hex digests are
modelled by an arbitrary function `H : String → String`.
-/

/-- Round-half-to-even (Python `round` tie-breaking) to an integer.
`Rat.floor` is used rather than `⌊⌋` to keep the definition executable;
`ratFloor_eq_floor` below bridges the two. -/
def roundHalfEven (q : ℚ) : ℤ :=
  if q - (Rat.floor q : ℚ) < 1/2 then Rat.floor q
  else if 1/2 < q - (Rat.floor q : ℚ) then Rat.floor q + 1
  else if Rat.floor q % 2 = 0 then Rat.floor q else Rat.floor q + 1

/-- Python `round(q, d)`: round to `d` decimal digits, ties to even. -/
def roundTo (d : ℕ) (q : ℚ) : ℚ := (roundHalfEven (q * 10 ^ d) : ℚ) / 10 ^ d

/-! ## Liveness scorer (src/liveness_detector.py, `detect_liveness`)

The five per-region signal extractors (`calculate_texture_score`,
`calculate_color_diversity`, `calculate_frequency_score`,
`detect_mobile_screen`, `calculate_reflection_score`) compute pixel
statistics; their outputs are the inputs of the fusion step and are modelled
as an arbitrary `LivenessSignals` record. -/

/-- Outputs of the five signal extractors for one face region. -/
structure LivenessSignals where
  texture_score : ℚ
  color_diversity : ℚ
  freq_score : ℚ
  is_screen : Bool
  reflection_score : ℚ
  deriving DecidableEq

/-- `texture_confidence = min(texture_score / 50.0, 1.0)` -/
def texture_confidence (s : ℚ) : ℚ := min (s / 50) 1

/-- `color_confidence = min(color_diversity / 30.0, 1.0)` -/
def color_confidence (s : ℚ) : ℚ := min (s / 30) 1

/-- `freq_confidence = min(freq_score / 1500.0, 1.0)` -/
def freq_confidence (s : ℚ) : ℚ := min (s / 1500) 1

/-- `screen_confidence = 0.0 if is_screen else 1.0` -/
def screen_confidence (b : Bool) : ℚ := if b then 0 else 1

/-- The weighted fusion of the five confidences (before any penalty). -/
def fusedScore (sig : LivenessSignals) : ℚ :=
  texture_confidence sig.texture_score * (35/100) +
  color_confidence sig.color_diversity * (25/100) +
  freq_confidence sig.freq_score * (20/100) +
  screen_confidence sig.is_screen * (15/100) +
  sig.reflection_score * (5/100)

/-- `is_screen or (texture_score < 20 and color_diversity < 12)` -/
def penaltyCondition (sig : LivenessSignals) : Bool :=
  sig.is_screen || (decide (sig.texture_score < 20) && decide (sig.color_diversity < 12))

/-- `if penalty: liveness_score *= 0.5` — the score used for thresholding. -/
def scoreAfterPenalty (sig : LivenessSignals) : ℚ :=
  if penaltyCondition sig then fusedScore sig * (1/2) else fusedScore sig

/-- Bounding box as delivered by the face detector: `(top, right, bottom, left)`. -/
structure FaceLocation where
  top : Int
  right : Int
  bottom : Int
  left : Int
  deriving DecidableEq

/-- `LivenessDetector.detect_liveness`: clamp the bbox to the frame, reject
empty/inverted or sub-80×80 regions with `(False, 0.0)`, otherwise fuse the
extractor outputs, apply the penalty, threshold, and return the rounded
score. -/
def detect_liveness (frameH frameW : Int) (loc : FaceLocation)
    (liveness_threshold : ℚ) (sig : LivenessSignals) : Bool × ℚ :=
  let top := max 0 loc.top
  let left := max 0 loc.left
  let bottom := min frameH loc.bottom
  let right := min frameW loc.right
  if bottom ≤ top ∨ right ≤ left then (false, 0)
  else if bottom - top < 80 ∨ right - left < 80 then (false, 0)
  else
    let score := scoreAfterPenalty sig
    (decide (liveness_threshold ≤ score), roundTo 3 score)

/-! ## Detection stability tracker (src/gui_application.py, `AttendanceTracker`) -/

/-- Per-identity entry of `AttendanceTracker.detection_history`. -/
structure DetState where
  consecutive_detections : ℕ
  last_seen : ℕ
  is_stable : Bool
  deriving DecidableEq

/-- `AttendanceTracker.__init__`: `self.detection_threshold = 5`. -/
def detection_threshold : ℕ := 5

/-- `AttendanceTracker.__init__`: `self.detection_cooldown = 30`. -/
def detection_cooldown : ℕ := 30

/-- Initial per-identity state installed on first sight of an identity. -/
def initDetState : DetState := ⟨0, 0, false⟩

/-- `AttendanceTracker.update_detection` for one identity at frame
`current_frame`.  On a detected frame the consecutive count grows and
stability is latched once the count reaches the threshold; on a missed frame
both reset only when the identity has been unseen for more than `cooldown`
frames. -/
def update_detection (threshold cooldown : ℕ) (current_frame : ℕ)
    (s : DetState) (is_detected : Bool) : DetState :=
  if is_detected then
    { consecutive_detections := s.consecutive_detections + 1,
      last_seen := current_frame,
      is_stable := if threshold ≤ s.consecutive_detections + 1 then true else s.is_stable }
  else
    if cooldown < current_frame - s.last_seen then
      { s with consecutive_detections := 0, is_stable := false }
    else s

/-- Fold `update_detection` over a list of `(frame_number, is_detected)`
events, i.e. the successive calls made by the attendance loop for one
identity. -/
def runDetection (threshold cooldown : ℕ) (s : DetState) :
    List (ℕ × Bool) → DetState
  | [] => s
  | e :: rest => runDetection threshold cooldown
      (update_detection threshold cooldown e.1 s e.2) rest

/-! ## Engagement aggregator (src/emotion_detector.py) -/

/-- The emotion labels emitted by `EmotionDetector`. -/
inductive Emotion
  | Neutral | Happy | Sad | Surprise | Anger | Fear | Disgust
  deriving DecidableEq

/-- `ENGAGED_EMOTIONS = ['Happy', 'Surprise']` -/
def ENGAGED_EMOTIONS : List Emotion := [.Happy, .Surprise]

/-- `DISENGAGED_EMOTIONS = ['Sad', 'Anger', 'Fear']` -/
def DISENGAGED_EMOTIONS : List Emotion := [.Sad, .Anger, .Fear]

/-- `sum(1 for e in history if e in ENGAGED_EMOTIONS)` -/
def engagedCount (history : List Emotion) : ℕ :=
  (history.filter fun e => ENGAGED_EMOTIONS.contains e).length

/-- `sum(1 for e in history if e in DISENGAGED_EMOTIONS)` -/
def disengagedCount (history : List Emotion) : ℕ :=
  (history.filter fun e => DISENGAGED_EMOTIONS.contains e).length

/-- `EmotionDetector.calculate_engagement_score` over the current emotion
history window: `50 + ((engaged - 0.5*disengaged)/total) * 50`, clamped to
[0, 100] and rounded to two decimals; an empty history yields 50.0. -/
def calculate_engagement_score (history : List Emotion) : ℚ :=
  if history.isEmpty then 50
  else
    roundTo 2 (max 0 (min 100
      (50 + ((engagedCount history : ℚ) - (disengagedCount history : ℚ) * (1/2))
            / (history.length : ℚ) * 50)))

/-! ## Ledger (src/blockchain.py)

SHA-256 hex digests are modelled by an arbitrary `H : String → String`; the
payload dictionary is modelled as a key/value list and
`json.dumps(data, sort_keys=True)` as rendering the entries sorted by key. -/

/-- Code-point lexicographic order on char lists — the string order that
`sort_keys=True` sorts by. -/
def charListLt : List Char → List Char → Bool
  | [], [] => false
  | [], _ :: _ => true
  | _ :: _, [] => false
  | x :: xs, y :: ys =>
    if x.toNat < y.toNat then true
    else if y.toNat < x.toNat then false
    else charListLt xs ys

/-- Code-point lexicographic order on strings. -/
def strKeyLt (a b : String) : Bool := charListLt a.data b.data

/-- Insert a key/value pair into a key-sorted list. -/
def insertByKey (p : String × String) : List (String × String) → List (String × String)
  | [] => [p]
  | q :: rest => if strKeyLt p.1 q.1 then p :: q :: rest else q :: insertByKey p rest

/-- Sort payload entries by key (the effect of `sort_keys=True`). -/
def sortByKey (l : List (String × String)) : List (String × String) :=
  l.foldr insertByKey []

/-- Render one payload entry as a JSON object member. -/
def jsonMember (p : String × String) : String :=
  "\"" ++ p.1 ++ "\": \"" ++ p.2 ++ "\""

/-- `json.dumps(data, sort_keys=True)` for a string-valued payload. -/
def jsonDumpsSorted (d : List (String × String)) : String :=
  "\x7b" ++ String.intercalate ", " ((sortByKey d).map jsonMember) ++ "\x7d"

/-- A block of the chain (class `Block`). -/
structure Block where
  index : ℕ
  timestamp : String
  data : List (String × String)
  previous_hash : String
  nonce : ℕ
  hash : String
  deriving DecidableEq

/-- The string hashed by `Block.calculate_hash`:
`f"{self.index}{self.timestamp}{json.dumps(self.data, sort_keys=True)}{self.previous_hash}{self.nonce}"`. -/
def blockString (b : Block) : String :=
  toString b.index ++ b.timestamp ++ jsonDumpsSorted b.data ++
    b.previous_hash ++ toString b.nonce

/-- `Block.calculate_hash`, with the SHA-256 hex digest abstracted as `H`. -/
def calculate_hash (H : String → String) (b : Block) : String :=
  H (blockString b)

/-- `Block.__init__`: nonce starts at 0 and the hash field is initialised to
`calculate_hash` of the fresh block. -/
def Block.new (H : String → String) (index : ℕ) (timestamp : String)
    (data : List (String × String)) (previous_hash : String) : Block :=
  { index := index, timestamp := timestamp, data := data,
    previous_hash := previous_hash, nonce := 0,
    hash := calculate_hash H ⟨index, timestamp, data, previous_hash, 0, ""⟩ }

/-- `"0" * difficulty`, the prefix demanded by proof-of-work. -/
def target (difficulty : ℕ) : String := String.mk (List.replicate difficulty '0')

/-- `Block.mine_block`: repeat `nonce += 1; hash = calculate_hash()` until the
hash starts with `difficulty` zeros.  The unbounded Python `while` loop is
given explicit fuel; `none` models non-termination within the fuel bound. -/
def mine_block (H : String → String) (difficulty : ℕ) (fuel : ℕ) (b : Block) :
    Option Block :=
  match fuel with
  | 0 => if b.hash.take difficulty = target difficulty then some b else none
  | f + 1 =>
    if b.hash.take difficulty = target difficulty then some b
    else
      let b' : Block := { b with nonce := b.nonce + 1 }
      mine_block H difficulty f { b' with hash := calculate_hash H b' }

/-- One step of the `Blockchain.is_chain_valid` loop body: block `cur` (at
index `i ≥ 1`) passes iff its stored hash matches its recomputed digest and
its `previous_hash` matches the stored hash of block `i-1`. -/
def pairOK (H : String → String) (prev cur : Block) : Bool :=
  (cur.hash == calculate_hash H cur) && (cur.previous_hash == prev.hash)

/-- The `for i in range(1, len(chain))` loop of `is_chain_valid`, carrying the
previous block. -/
def validFrom (H : String → String) : Block → List Block → Bool
  | _, [] => true
  | prev, cur :: rest => pairOK H prev cur && validFrom H cur rest

/-- `Blockchain.is_chain_valid`: every block from index 1 on is checked
against its recomputed digest and its predecessor's stored hash; the genesis
block itself is never rechecked. -/
def is_chain_valid (H : String → String) : List Block → Bool
  | [] => true
  | b :: rest => validFrom H b rest

/-! ## Persistence layer (src/database_manager.py) -/

/-- Column constraints appearing in the `CREATE TABLE` statements. -/
inductive ColConstraint
  | primaryKey
  | autoincrement
  | notNull
  | unique
  | defaultInt (n : Int)
  deriving DecidableEq

/-- One column of a `CREATE TABLE` statement. -/
structure ColumnDef where
  name : String
  sqlType : String
  constraints : List ColConstraint
  deriving DecidableEq

/-- A table schema: its columns.  Neither `CREATE TABLE` statement of
`init_database` declares any table-level `UNIQUE` constraint, so columns are
the only carriers of uniqueness. -/
structure TableSchema where
  name : String
  columns : List ColumnDef
  deriving DecidableEq

/-- The `users` table of `DatabaseManager.init_database`, transcribed. -/
def usersSchema : TableSchema :=
  { name := "users",
    columns :=
      [ ⟨"user_id", "TEXT", [.primaryKey]⟩,
        ⟨"name", "TEXT", [.notNull]⟩,
        ⟨"registration_number", "TEXT", [.unique]⟩,
        ⟨"email", "TEXT", []⟩,
        ⟨"department", "TEXT", []⟩,
        ⟨"phone", "TEXT", []⟩,
        ⟨"registration_date", "TEXT", [.notNull]⟩,
        ⟨"face_encoding_hash", "TEXT", []⟩,
        ⟨"total_attendance", "INTEGER", [.defaultInt 0]⟩,
        ⟨"last_attendance", "TEXT", []⟩,
        ⟨"is_active", "INTEGER", [.defaultInt 1]⟩,
        ⟨"is_admin", "INTEGER", [.defaultInt 0]⟩,
        ⟨"created_by", "TEXT", []⟩,
        ⟨"notes", "TEXT", []⟩ ] }

/-- The `attendance` table of `DatabaseManager.init_database`, transcribed
(the `FOREIGN KEY (user_id) REFERENCES users(user_id)` clause adds no
uniqueness and is omitted). -/
def attendanceSchema : TableSchema :=
  { name := "attendance",
    columns :=
      [ ⟨"id", "INTEGER", [.primaryKey, .autoincrement]⟩,
        ⟨"user_id", "TEXT", [.notNull]⟩,
        ⟨"name", "TEXT", [.notNull]⟩,
        ⟨"registration_number", "TEXT", []⟩,
        ⟨"timestamp", "TEXT", [.notNull]⟩,
        ⟨"date", "TEXT", [.notNull]⟩,
        ⟨"time", "TEXT", [.notNull]⟩,
        ⟨"liveness_score", "REAL", []⟩,
        ⟨"emotion", "TEXT", []⟩,
        ⟨"engagement_score", "REAL", []⟩,
        ⟨"confidence", "REAL", []⟩,
        ⟨"blockchain_hash", "TEXT", []⟩,
        ⟨"face_encoding_hash", "TEXT", []⟩,
        ⟨"location", "TEXT", []⟩,
        ⟨"device_info", "TEXT", []⟩ ] }

/-- A column enforces row uniqueness iff it is declared `PRIMARY KEY` or
`UNIQUE`. -/
def colHasUniqueness (c : ColumnDef) : Bool :=
  c.constraints.any fun k =>
    match k with
    | .primaryKey => true
    | .unique => true
    | _ => false

/-- Whether the schema forbids two rows agreeing on all columns of `cols`:
with only column-level constraints available, that holds iff some column of
`cols` is itself `PRIMARY KEY` or `UNIQUE`. -/
def schemaEnforcesUniqueOn (t : TableSchema) (cols : List String) : Bool :=
  cols.any fun cname =>
    t.columns.any fun c => c.name == cname && colHasUniqueness c

/-- A row as a column-name/value list. -/
def rowGet (row : List (String × String)) (c : String) : String :=
  match row.find? fun p => p.1 == c with
  | some p => p.2
  | none => ""

/-- Pairwise distinctness of the values of column `c` across rows. -/
def distinctOn (c : String) : List (List (String × String)) → Bool
  | [] => true
  | r :: rest =>
    (rest.all fun r2 => !(rowGet r c == rowGet r2 c)) && distinctOn c rest

/-- Whether a set of rows satisfies every uniqueness constraint the schema
declares: for each `PRIMARY KEY`/`UNIQUE` column, its values are pairwise
distinct. -/
def tableAdmits (t : TableSchema) (rows : List (List (String × String))) : Bool :=
  t.columns.all fun c => !colHasUniqueness c || distinctOn c.name rows

/-! ## Attendance marking path
(src/database_manager.py `mark_attendance`; src/gui_application.py
`start_attendance`, recognition branch) -/

/-- An attendance row, reduced to the columns consulted by the duplicate
check `SELECT id FROM attendance WHERE user_id = ? AND date = ?`. -/
structure AttRow where
  user_id : String
  date : String
  deriving DecidableEq

/-- `DatabaseManager.mark_attendance` on a given day: if a row for
`(user_id, date)` already exists, return `(False, "Already marked today")`
and leave the table unchanged; otherwise insert the row and return
`(True, "Success")`.  The result is `(new table, success, message)`. -/
def mark_attendance (db : List AttRow) (user date : String) :
    List AttRow × Bool × String :=
  if db.any fun r => r.user_id == user && r.date == date then
    (db, false, "Already marked today")
  else
    (db ++ [⟨user, date⟩], true, "Success")

/-- A users-table row, reduced to the columns the `add_user` checks consult
(`registration_number=None` in Python maps to `none`). -/
structure UserRow where
  user_id : String
  name : String
  registration_number : Option String
  deriving DecidableEq

/-- `DatabaseManager.add_user`: if a registration number is supplied and
some stored row already carries it, refuse and leave the table unchanged;
otherwise perform the `INSERT OR REPLACE` — the row with the same
`user_id` (the primary key), if any, is replaced by the complete new row.
The result is `(new table, success)`. -/
def add_user (users : List UserRow) (user_id name : String)
    (registration_number : Option String) : List UserRow × Bool :=
  let regnoConflict :=
    match registration_number with
    | none => false
    | some r => users.any fun u => u.registration_number == some r
  if regnoConflict then (users, false)
  else
    ((users.filter fun u => !(u.user_id == user_id)) ++
      [⟨user_id, name, registration_number⟩], true)

/-- Session state relevant to at-most-once marking: the persisted attendance
table, the attendance payloads appended to the ledger (one per
`blockchain.add_block` call, carrying the user id and the date of its
timestamp), and `tracker.recognized_today`. -/
structure SessionState where
  db : List AttRow
  ledger : List AttRow
  recognized_today : List String
  deriving DecidableEq

/-- `set.add`: insert without duplication. -/
def insertUser (u : String) (l : List String) : List String :=
  if l.contains u then l else u :: l

/-- Lines 1156–1166 of gui_application.py: on every processed frame in which
the identity is matched, look today's records up in the database and, if any
exist, add the identity to `tracker.recognized_today`. -/
def preCheckDb (user date : String) (st : SessionState) : SessionState :=
  if st.db.any fun r => r.user_id == user && r.date == date then
    { st with recognized_today := insertUser user st.recognized_today }
  else st

/-- Lines 1202–1241 of gui_application.py: if the identity is stable, live
and not yet in `recognized_today`, append an attendance payload to the
ledger (`blockchain.add_block` runs first), then call
`db.mark_attendance`; the identity joins `recognized_today` only when the
write reports success. -/
def markStep (user date : String) (stableLive : Bool) (st : SessionState) :
    SessionState :=
  if stableLive && !(st.recognized_today.contains user) then
    let res := mark_attendance st.db user date
    { db := res.1,
      ledger := st.ledger ++ [⟨user, date⟩],
      recognized_today :=
        if res.2.1 then insertUser user st.recognized_today
        else st.recognized_today }
  else st

/-- One processed frame in which the identity is matched: the database
pre-check followed by the guarded marking step.  `stableLive` abstracts
`is_stable and is_live` for this frame. -/
def processMatchedFrame (user date : String) (stableLive : Bool)
    (st : SessionState) : SessionState :=
  markStep user date stableLive (preCheckDb user date st)

/-- A whole same-day session: one `processMatchedFrame` per processed frame,
driven by that frame's `is_stable and is_live` outcome. -/
def runSession (user date : String) (st : SessionState) : List Bool → SessionState
  | [] => st
  | b :: rest => runSession user date (processMatchedFrame user date b st) rest

/-- Number of attendance rows (or ledger payloads) for `(user, date)`. -/
def countRows (user date : String) (l : List AttRow) : ℕ :=
  (l.filter fun r => r.user_id == user && r.date == date).length

/-- Concrete signals used in the C3 counterexample: a tiny texture score, no
color/frequency/reflection signal, screen artifact flagged. -/
def sigCE : LivenessSignals := ⟨1/10, 0, 0, true, 0⟩

/-- A 200×200 bbox well inside a 480×640 frame. -/
def locCE : FaceLocation := ⟨0, 200, 200, 0⟩

/-- Concrete signals with both penalty conditions true (C3 witness). -/
def sigW3 : LivenessSignals := ⟨5, 3, 100, true, 1/2⟩

/-- Digest stand-in for concrete ledger witnesses (injective, and every
output already starts with "00"). -/
def digestW : String → String := fun s => "00" ++ s

/-- A concrete genesis block mined with `digestW`. -/
def genesisW : Block := Block.new digestW 0 "t0" [("type", "genesis")] "0"

/-- A concrete attendance block extending `genesisW`. -/
def attBlockW : Block :=
  Block.new digestW 1 "t1" [("type", "attendance"), ("user_id", "u1")] genesisW.hash

/-- Two attendance rows that agree on `user_id` and `date` but differ in
`id` (the C8 counterexample). -/
def dupRowA : List (String × String) :=
  [("id", "1"), ("user_id", "u1"), ("date", "2026-10-10")]

/-- See `dupRowA`. -/
def dupRowB : List (String × String) :=
  [("id", "2"), ("user_id", "u1"), ("date", "2026-10-10")]

/-- `(user, date)` has been marked: one row, one ledger payload, identity in
the in-session set. -/
def MarkedState (user date : String) (st : SessionState) : Prop :=
  countRows user date st.db = 1 ∧ countRows user date st.ledger = 1 ∧
  st.recognized_today.contains user = true

/-- `(user, date)` is untouched: no row, no ledger payload, identity not in
the in-session set. -/
def CleanState (user date : String) (st : SessionState) : Prop :=
  countRows user date st.db = 0 ∧ countRows user date st.ledger = 0 ∧
  st.recognized_today.contains user = false

/-! ## Rounding lemmas -/

theorem ratFloor_eq_floor (q : ℚ) : Rat.floor q = ⌊q⌋ := by
  rw [Rat.floor_def]
  exact Rat.floor_def' q

theorem roundHalfEven_cases (q : ℚ) :
    roundHalfEven q = ⌊q⌋ ∨
      (roundHalfEven q = ⌊q⌋ + 1 ∧ (1:ℚ)/2 ≤ q - ⌊q⌋) := by
  unfold roundHalfEven
  rw [ratFloor_eq_floor]
  by_cases h1 : q - (⌊q⌋ : ℚ) < 1/2
  · rw [if_pos h1]; exact Or.inl rfl
  · rw [if_neg h1]
    by_cases h2 : (1:ℚ)/2 < q - (⌊q⌋ : ℚ)
    · rw [if_pos h2]; exact Or.inr ⟨rfl, le_of_lt h2⟩
    · rw [if_neg h2]
      by_cases h3 : ⌊q⌋ % 2 = 0
      · rw [if_pos h3]; exact Or.inl rfl
      · rw [if_neg h3]; exact Or.inr ⟨rfl, le_of_not_lt h1⟩

theorem roundHalfEven_nonneg (q : ℚ) (h : 0 ≤ q) : 0 ≤ roundHalfEven q := by
  rcases roundHalfEven_cases q with hc | ⟨hc, _⟩ <;> rw [hc]
  · exact Int.floor_nonneg.mpr h
  · have := Int.floor_nonneg.mpr h; omega

theorem roundHalfEven_le (q : ℚ) (n : ℤ) (h : q ≤ n) : roundHalfEven q ≤ n := by
  have hfl : ⌊q⌋ ≤ n := by
    have := Int.floor_le_floor h
    simpa using this
  rcases roundHalfEven_cases q with hc | ⟨hc, hr⟩ <;> rw [hc]
  · exact hfl
  · have hlt : (⌊q⌋ : ℚ) < n := by
      have hq : (⌊q⌋ : ℚ) + 1/2 ≤ q := by linarith
      linarith
    have : ⌊q⌋ < n := by exact_mod_cast hlt
    omega

theorem roundTo_nonneg (d : ℕ) (q : ℚ) (h : 0 ≤ q) : 0 ≤ roundTo d q := by
  unfold roundTo
  apply div_nonneg _ (by positivity)
  exact_mod_cast roundHalfEven_nonneg _ (by positivity)

theorem roundTo_le (d : ℕ) (q : ℚ) (n : ℤ) (h : q ≤ n) : roundTo d q ≤ n := by
  unfold roundTo
  rw [div_le_iff₀ (by positivity : (0:ℚ) < 10 ^ d)]
  have hq : q * 10 ^ d ≤ ((n * 10 ^ d : ℤ) : ℚ) := by
    push_cast
    exact mul_le_mul_of_nonneg_right h (by positivity)
  have := roundHalfEven_le _ _ hq
  calc (roundHalfEven (q * 10 ^ d) : ℚ) ≤ ((n * 10 ^ d : ℤ) : ℚ) := by exact_mod_cast this
    _ = (n : ℚ) * 10 ^ d := by push_cast; ring

theorem roundHalfEven_eq_of_lt (q : ℚ) (n : ℤ) (hf : ⌊q⌋ = n)
    (hr : q - n < 1/2) : roundHalfEven q = n := by
  unfold roundHalfEven
  rw [ratFloor_eq_floor, hf, if_pos hr]

theorem roundHalfEven_eq_succ_of_gt (q : ℚ) (n : ℤ) (hf : ⌊q⌋ = n)
    (hr : (1:ℚ)/2 < q - n) : roundHalfEven q = n + 1 := by
  unfold roundHalfEven
  rw [ratFloor_eq_floor, hf, if_neg (by linarith), if_pos hr]

theorem roundHalfEven_intCast (n : ℤ) : roundHalfEven (n : ℚ) = n :=
  roundHalfEven_eq_of_lt _ n (Int.floor_intCast n) (by norm_num)

theorem roundTo_intCast (d : ℕ) (n : ℤ) : roundTo d (n : ℚ) = n := by
  unfold roundTo
  have h : ((n : ℚ) * 10 ^ d) = ((n * 10 ^ d : ℤ) : ℚ) := by push_cast; ring
  rw [h, roundHalfEven_intCast]
  push_cast
  field_simp

/-! ## C5 — engagement score -/

/-- C5 (amended): for every non-empty emotion window the computed engagement
score equals `50 + 50·(engaged − 0.5·disengaged)/window_size` clamped to
[0, 100] **and then rounded to two decimals** (Python `round(score, 2)`);
consequently it always lies in [0, 100], and for the window
[Happy, Happy, Sad] it equals exactly 75.0. -/
theorem engagement_score_spec (history : List Emotion) (h : history ≠ []) :
    calculate_engagement_score history =
      roundTo 2 (max 0 (min 100
        (50 + ((engagedCount history : ℚ) - (disengagedCount history : ℚ) * (1/2))
              / (history.length : ℚ) * 50))) ∧
    0 ≤ calculate_engagement_score history ∧
    calculate_engagement_score history ≤ 100 ∧
    calculate_engagement_score [.Happy, .Happy, .Sad] = 75 := by
  have hne : history.isEmpty = false := by
    cases history with
    | nil => exact absurd rfl h
    | cons a t => rfl
  have heq : calculate_engagement_score history =
      roundTo 2 (max 0 (min 100
        (50 + ((engagedCount history : ℚ) - (disengagedCount history : ℚ) * (1/2))
              / (history.length : ℚ) * 50))) := by
    unfold calculate_engagement_score
    rw [hne]
    simp
  refine ⟨heq, ?_, ?_, ?_⟩
  · rw [heq]
    exact roundTo_nonneg _ _ (le_max_left _ _)
  · rw [heq]
    have h100 : max 0 (min 100
        (50 + ((engagedCount history : ℚ) - (disengagedCount history : ℚ) * (1/2))
              / (history.length : ℚ) * 50)) ≤ ((100 : ℤ) : ℚ) := by
      push_cast
      exact max_le (by norm_num) (min_le_left _ _)
    exact_mod_cast roundTo_le _ _ _ h100
  · have he : engagedCount [Emotion.Happy, .Happy, .Sad] = 2 := rfl
    have hd : disengagedCount [Emotion.Happy, .Happy, .Sad] = 1 := rfl
    unfold calculate_engagement_score
    rw [he, hd]
    norm_num
    exact_mod_cast roundTo_intCast 2 75

/-- C5 witness at the window [Happy, Happy, Sad]. -/
theorem engagement_score_spec_witness :
    calculate_engagement_score [.Happy, .Happy, .Sad] = 75 ∧
    0 ≤ calculate_engagement_score [.Happy, .Happy, .Sad] ∧
    calculate_engagement_score [.Happy, .Happy, .Sad] ≤ 100 :=
  have h := engagement_score_spec [.Happy, .Happy, .Sad] (by decide)
  ⟨h.2.2.2, h.2.1, h.2.2.1⟩

/-- C5 counterexample to the claim as stated: for the window
[Happy, Neutral, Neutral] the code computes `round(·, 2)` of the clamped
formula value, i.e. 66.67, while the claimed exact formula value is 200/3;
the two differ, so the computed score does not equal the clamped formula. -/
theorem engagement_score_exact_value_counterexample :
    calculate_engagement_score [.Happy, .Neutral, .Neutral] = 6667/100 ∧
    50 + ((engagedCount [Emotion.Happy, .Neutral, .Neutral] : ℚ) -
          (disengagedCount [Emotion.Happy, .Neutral, .Neutral] : ℚ) * (1/2))
        / ((List.length [Emotion.Happy, .Neutral, .Neutral] : ℕ) : ℚ) * 50 = 200/3 ∧
    max 0 (min 100 ((200:ℚ)/3)) = 200/3 ∧
    (6667 : ℚ)/100 ≠ 200/3 := by
  have he : engagedCount [Emotion.Happy, .Neutral, .Neutral] = 1 := rfl
  have hd : disengagedCount [Emotion.Happy, .Neutral, .Neutral] = 0 := rfl
  refine ⟨?_, ?_, ?_, by norm_num⟩
  · unfold calculate_engagement_score
    rw [he, hd]
    norm_num
    unfold roundTo
    rw [show ((200:ℚ)/3 * 10 ^ 2) = 20000/3 by norm_num]
    rw [roundHalfEven_eq_succ_of_gt (20000/3) 6666
      (by rw [Int.floor_eq_iff]; norm_num) (by norm_num)]
    norm_num
  · rw [he, hd]
    norm_num
  · norm_num

/-! ## C2 — hard reject of small regions -/

/-- C2: whenever the bbox clamped to the frame is empty/inverted or its
clamped height or width is under 80 px, `detect_liveness` returns
`(False, 0.0)`, and the result does not depend on the extractor outputs
(no extractor is consulted). -/
theorem small_region_rejected (frameH frameW : Int) (loc : FaceLocation)
    (t : ℚ) (sig sig' : LivenessSignals)
    (h : min frameH loc.bottom ≤ max 0 loc.top ∨
         min frameW loc.right ≤ max 0 loc.left ∨
         min frameH loc.bottom - max 0 loc.top < 80 ∨
         min frameW loc.right - max 0 loc.left < 80) :
    detect_liveness frameH frameW loc t sig = (false, 0) ∧
    detect_liveness frameH frameW loc t sig =
      detect_liveness frameH frameW loc t sig' := by
  have key : ∀ s : LivenessSignals,
      detect_liveness frameH frameW loc t s = (false, 0) := by
    intro s
    unfold detect_liveness
    set A := max 0 loc.top with hA
    set L := max 0 loc.left with hL
    set B := min frameH loc.bottom with hB
    set R := min frameW loc.right with hR
    by_cases h1 : B ≤ A ∨ R ≤ L
    · rw [if_pos h1]
    · rw [if_neg h1]
      have h2 : B - A < 80 ∨ R - L < 80 := by
        rcases h with h | h | h | h
        · exact absurd (Or.inl h) h1
        · exact absurd (Or.inr h) h1
        · exact Or.inl h
        · exact Or.inr h
      rw [if_pos h2]
  exact ⟨key sig, (key sig).trans (key sig').symm⟩

/-- C2 witness: a 60-px-tall bbox is rejected identically for two very
different signal vectors. -/
theorem small_region_rejected_witness :
    detect_liveness 480 640 ⟨100, 160, 160, 100⟩ (85/100) ⟨50, 20, 1000, false, 1⟩
      = (false, 0) ∧
    detect_liveness 480 640 ⟨100, 160, 160, 100⟩ (85/100) ⟨50, 20, 1000, false, 1⟩
      = detect_liveness 480 640 ⟨100, 160, 160, 100⟩ (85/100) ⟨0, 0, 0, true, 0⟩ :=
  small_region_rejected 480 640 ⟨100, 160, 160, 100⟩ (85/100)
    ⟨50, 20, 1000, false, 1⟩ ⟨0, 0, 0, true, 0⟩ (by decide)

/-! ## C3 — the suspicious-pattern penalty -/

/-- C3 (amended): when the screen flag is set and texture < 20 and color
diversity < 12 all hold, the post-penalty score equals the pre-penalty fused
score times 0.5 — not times 0.25 — and the penalty multiplies by 0.5 exactly
once for any signals satisfying the penalty condition; the score the
function *returns* is this post-penalty value rounded to three decimals
(Python `round(·, 3)`). -/
theorem penalty_applied_once_after_fusion (sig : LivenessSignals)
    (hscreen : sig.is_screen = true)
    (htex : sig.texture_score < 20) (hcol : sig.color_diversity < 12) :
    scoreAfterPenalty sig = fusedScore sig * (1/2) ∧
    (fusedScore sig ≠ 0 → scoreAfterPenalty sig ≠ fusedScore sig * (1/4)) ∧
    (∀ sig2 : LivenessSignals, penaltyCondition sig2 = true →
       scoreAfterPenalty sig2 = fusedScore sig2 * (1/2)) ∧
    (∀ (frameH frameW : Int) (loc : FaceLocation) (t : ℚ),
       ¬(min frameH loc.bottom ≤ max 0 loc.top ∨
         min frameW loc.right ≤ max 0 loc.left) →
       ¬(min frameH loc.bottom - max 0 loc.top < 80 ∨
         min frameW loc.right - max 0 loc.left < 80) →
       (detect_liveness frameH frameW loc t sig).2 =
         roundTo 3 (fusedScore sig * (1/2))) := by
  have hgen : ∀ sig2 : LivenessSignals, penaltyCondition sig2 = true →
      scoreAfterPenalty sig2 = fusedScore sig2 * (1/2) := by
    intro sig2 hp
    unfold scoreAfterPenalty
    rw [hp]
    simp
  have hpen : penaltyCondition sig = true := by
    unfold penaltyCondition
    rw [hscreen]
    simp
  have h1 := hgen sig hpen
  refine ⟨h1, ?_, hgen, ?_⟩
  · intro hf0 habs
    rw [h1] at habs
    have h4 : fusedScore sig * (1/4) = 0 := by linarith
    rcases mul_eq_zero.mp h4 with h | h
    · exact hf0 h
    · norm_num at h
  · intro frameH frameW loc t hr1 hr2
    unfold detect_liveness
    rw [if_neg hr1, if_neg hr2]
    show roundTo 3 (scoreAfterPenalty sig) = roundTo 3 (fusedScore sig * (1/2))
    rw [h1]

/-- C3 witness: both penalty conditions hold for `sigW3` inside a valid
200×200 region. -/
theorem penalty_applied_once_after_fusion_witness :
    scoreAfterPenalty sigW3 = fusedScore sigW3 * (1/2) ∧
    (detect_liveness 480 640 locCE (85/100) sigW3).2 =
      roundTo 3 (fusedScore sigW3 * (1/2)) :=
  have h := penalty_applied_once_after_fusion sigW3 rfl
    (by show (5:ℚ) < 20; norm_num) (by show (3:ℚ) < 12; norm_num)
  ⟨h.1, h.2.2.2 480 640 locCE (85/100) (by decide) (by decide)⟩

/-- C3 counterexample to the claim as stated: with signals
`⟨0.1, 0, 0, screen, 0⟩` (both penalty conditions hold) in a valid region,
the *returned* score is `round(fused·0.5, 3) = 0.0`, which differs from the
pre-penalty fused score times 0.5 (= 7/20000). -/
theorem penalty_returned_score_counterexample :
    sigCE.is_screen = true ∧ sigCE.texture_score < 20 ∧
    sigCE.color_diversity < 12 ∧
    fusedScore sigCE * (1/2) = 7/20000 ∧
    (detect_liveness 480 640 locCE (85/100) sigCE).2 = 0 ∧
    (0 : ℚ) ≠ 7/20000 := by
  have hfused : fusedScore sigCE = 7/10000 := by
    unfold fusedScore texture_confidence color_confidence freq_confidence
      screen_confidence sigCE
    norm_num
  have hsc : scoreAfterPenalty sigCE = 7/20000 := by
    unfold scoreAfterPenalty
    rw [show penaltyCondition sigCE = true from rfl, hfused]
    norm_num
  refine ⟨rfl, by show (1:ℚ)/10 < 20; norm_num, by show (0:ℚ) < 12; norm_num,
    by rw [hfused]; norm_num, ?_, by norm_num⟩
  unfold detect_liveness locCE
  rw [if_neg (by decide), if_neg (by decide)]
  show roundTo 3 (scoreAfterPenalty sigCE) = 0
  rw [hsc]
  unfold roundTo
  rw [show ((7:ℚ)/20000 * 10 ^ 3) = 7/20 by norm_num]
  rw [roundHalfEven_eq_of_lt (7/20) 0 (by rw [Int.floor_eq_iff]; norm_num)
    (by norm_num)]
  norm_num

/-! ## C4 — detection stability state machine -/

theorem update_detection_stable_mono (threshold cooldown f : ℕ) (s : DetState)
    (hs : s.is_stable = true) :
    (update_detection threshold cooldown f s true).is_stable = true := by
  unfold update_detection
  simp only [if_true]
  by_cases h : threshold ≤ s.consecutive_detections + 1
  · simp [h]
  · simp [h, hs]

theorem runDetection_stable_of_detected (threshold cooldown : ℕ) :
    ∀ (evs : List (ℕ × Bool)) (s : DetState), (∀ e ∈ evs, e.2 = true) →
      s.is_stable = true →
      (runDetection threshold cooldown s evs).is_stable = true := by
  intro evs
  induction evs with
  | nil => intro s _ hs; exact hs
  | cons e rest ih =>
    intro s hall hs
    have he : e.2 = true := hall e (List.mem_cons_self e rest)
    unfold runDetection
    rw [he]
    exact ih _ (fun x hx => hall x (List.mem_cons_of_mem e hx))
      (update_detection_stable_mono threshold cooldown e.1 s hs)

theorem runDetection_reaches_stable (threshold cooldown : ℕ) :
    ∀ (evs : List (ℕ × Bool)) (s : DetState), (∀ e ∈ evs, e.2 = true) →
      1 ≤ evs.length → threshold ≤ s.consecutive_detections + evs.length →
      (runDetection threshold cooldown s evs).is_stable = true := by
  intro evs
  induction evs with
  | nil => intro s _ hlen _; simp at hlen
  | cons e rest ih =>
    intro s hall _ hth
    have he : e.2 = true := hall e (List.mem_cons_self e rest)
    unfold runDetection
    rw [he]
    by_cases hnow : threshold ≤ s.consecutive_detections + 1
    · apply runDetection_stable_of_detected
      · exact fun x hx => hall x (List.mem_cons_of_mem e hx)
      · unfold update_detection
        simp [hnow]
    · have hrest : 1 ≤ rest.length := by
        by_contra hempty
        have : rest.length = 0 := by omega
        simp [this] at hth
        omega
      apply ih _ (fun x hx => hall x (List.mem_cons_of_mem e hx)) hrest
      have hcnt : (update_detection threshold cooldown e.1 s true).consecutive_detections
          = s.consecutive_detections + 1 := by
        unfold update_detection
        simp
      rw [hcnt]
      simp only [List.length_cons] at hth
      omega

/-- C4: (i) once stable, an identity stays stable on every further detected
frame; (ii) a stable identity loses stability only on a missed frame that
comes more than `cooldown` frames after it was last seen, and that step also
resets the consecutive-detection count to zero; (iii) an identity that is
detected on `threshold` (or more) consecutive processed frames ends up
stable. -/
theorem detection_stability_state_machine :
    (∀ (threshold cooldown f : ℕ) (s : DetState), s.is_stable = true →
       (update_detection threshold cooldown f s true).is_stable = true) ∧
    (∀ (threshold cooldown f : ℕ) (s : DetState) (b : Bool),
       s.is_stable = true →
       (update_detection threshold cooldown f s b).is_stable = false →
       b = false ∧ cooldown < f - s.last_seen ∧
       (update_detection threshold cooldown f s b).consecutive_detections = 0) ∧
    (∀ (threshold cooldown : ℕ) (s : DetState) (evs : List (ℕ × Bool)),
       (∀ e ∈ evs, e.2 = true) → 1 ≤ evs.length →
       threshold ≤ s.consecutive_detections + evs.length →
       (runDetection threshold cooldown s evs).is_stable = true) := by
  refine ⟨update_detection_stable_mono, ?_,
    fun threshold cooldown s evs => runDetection_reaches_stable threshold cooldown evs s⟩
  intro threshold cooldown f s b hs hfalse
  cases b with
  | true =>
    rw [update_detection_stable_mono threshold cooldown f s hs] at hfalse
    exact absurd hfalse (by simp)
  | false =>
    unfold update_detection at hfalse ⊢
    simp only [Bool.false_eq_true, if_false] at hfalse ⊢
    by_cases h : cooldown < f - s.last_seen
    · simp [h]
    · rw [if_neg h] at hfalse
      rw [hs] at hfalse
      exact absurd hfalse (by simp)

/-- C4 witness, at the source defaults (threshold 5, cooldown 30): a stable
state stays stable on a detected frame; it is reset by a miss 36 frames
after last sight; five consecutive detections from the initial state yield
stability. -/
theorem detection_stability_state_machine_witness :
    (update_detection detection_threshold detection_cooldown 10 ⟨7, 9, true⟩ true).is_stable
      = true ∧
    ((false : Bool) = false ∧ detection_cooldown < 40 - 4 ∧
      (update_detection detection_threshold detection_cooldown 40 ⟨7, 4, true⟩ false).consecutive_detections = 0) ∧
    (runDetection detection_threshold detection_cooldown initDetState
       [(1, true), (2, true), (3, true), (4, true), (5, true)]).is_stable = true :=
  ⟨detection_stability_state_machine.1 detection_threshold detection_cooldown 10 ⟨7, 9, true⟩ rfl,
   detection_stability_state_machine.2.1 detection_threshold detection_cooldown 40 ⟨7, 4, true⟩
     false rfl (by decide),
   detection_stability_state_machine.2.2 detection_threshold detection_cooldown initDetState
     [(1, true), (2, true), (3, true), (4, true), (5, true)]
     (by decide) (by decide) (by decide)⟩

theorem andE {a b : Bool} (h : (a && b) = true) : a = true ∧ b = true := by
  simp only [Bool.and_eq_true] at h
  exact h

/-! ## C6 — mining postcondition -/

/-- C6: whenever `mine_block` returns a block, (i) the stored hash starts
with `difficulty` zero characters ("00" at the default difficulty 2);
(ii) the stored hash equals the digest of the block's own fields, i.e. of
the concatenation of index, timestamp, sort-keyed JSON payload,
previous_hash and the found nonce — so `calculate_hash` re-run on the mined
block reproduces the stored hash deterministically; (iii) all fields except
nonce/hash are those of the input block, and the nonce search started from
the input block's nonce and only incremented. -/
theorem mine_block_postcondition (H : String → String) (difficulty fuel : ℕ)
    (b b' : Block) (hinv : b.hash = calculate_hash H b)
    (h : mine_block H difficulty fuel b = some b') :
    b'.hash.take difficulty = target difficulty ∧
    b'.hash = calculate_hash H b' ∧
    b'.hash = H (toString b'.index ++ b'.timestamp ++ jsonDumpsSorted b'.data ++
                 b'.previous_hash ++ toString b'.nonce) ∧
    b'.index = b.index ∧ b'.timestamp = b.timestamp ∧ b'.data = b.data ∧
    b'.previous_hash = b.previous_hash ∧ b.nonce ≤ b'.nonce := by
  induction fuel generalizing b with
  | zero =>
    unfold mine_block at h
    by_cases hc : b.hash.take difficulty = target difficulty
    · rw [if_pos hc] at h
      cases h
      exact ⟨hc, hinv, hinv, rfl, rfl, rfl, rfl, le_refl _⟩
    · rw [if_neg hc] at h
      cases h
  | succ f ih =>
    unfold mine_block at h
    by_cases hc : b.hash.take difficulty = target difficulty
    · rw [if_pos hc] at h
      cases h
      exact ⟨hc, hinv, hinv, rfl, rfl, rfl, rfl, le_refl _⟩
    · rw [if_neg hc] at h
      have step := ih _ rfl h
      refine ⟨step.1, step.2.1, step.2.2.1, step.2.2.2.1, step.2.2.2.2.1,
        step.2.2.2.2.2.1, step.2.2.2.2.2.2.1, ?_⟩
      have h8 : b.nonce + 1 ≤ b'.nonce := step.2.2.2.2.2.2.2
      omega

/-- C6 witness: with the digest stand-in `digestW` every hash already starts
with "00", so the genesis block mines at once; the theorem yields the "00"
prefix and hash reproducibility for it at difficulty 2. -/
theorem mine_block_postcondition_witness :
    genesisW.hash.take 2 = "00" ∧
    genesisW.hash = calculate_hash digestW genesisW ∧
    genesisW.nonce = 0 :=
  have h := mine_block_postcondition digestW 2 5 genesisW genesisW rfl (by decide)
  ⟨h.1, h.2.1, rfl⟩

/-! ## C7 / C10 — chain validation -/

theorem validFrom_imp_pairOK (H : String → String) (l2 : List Block) (bp bi : Block) :
    ∀ (l1 : List Block) (p : Block),
      validFrom H p (l1 ++ bp :: bi :: l2) = true → pairOK H bp bi = true := by
  intro l1
  induction l1 with
  | nil =>
    intro p h
    simp only [List.nil_append] at h
    unfold validFrom at h
    rcases andE h with ⟨_, h2⟩
    unfold validFrom at h2
    exact (andE h2).1
  | cons x xs ih =>
    intro p h
    simp only [List.cons_append] at h
    unfold validFrom at h
    exact ih x (andE h).2

theorem valid_imp_pairOK (H : String → String) (l1 l2 : List Block) (bp bi : Block)
    (h : is_chain_valid H (l1 ++ bp :: bi :: l2) = true) : pairOK H bp bi = true := by
  cases l1 with
  | nil =>
    simp only [List.nil_append] at h
    unfold is_chain_valid at h
    unfold validFrom at h
    exact (andE h).1
  | cons x xs =>
    simp only [List.cons_append] at h
    unfold is_chain_valid at h
    exact validFrom_imp_pairOK H l2 bp bi xs x h

/-- C7: in any valid chain, for any block `bi` at index ≥ 1 (with
predecessor `bp`), (i) replacing its payload with one whose digest differs
from the stored hash — in particular any payload change, absent a hash
collision — makes `is_chain_valid` return false, and (ii) replacing its
`previous_hash` with anything other than `bp`'s stored hash makes
`is_chain_valid` return false. -/
theorem ledger_tamper_detected (H : String → String) (l1 l2 : List Block)
    (bp bi : Block) (hvalid : is_chain_valid H (l1 ++ bp :: bi :: l2) = true) :
    (∀ data' : List (String × String),
       H (blockString { bi with data := data' }) ≠ bi.hash →
       is_chain_valid H (l1 ++ bp :: { bi with data := data' } :: l2) = false) ∧
    (∀ p' : String, p' ≠ bp.hash →
       is_chain_valid H (l1 ++ bp :: { bi with previous_hash := p' } :: l2) = false) := by
  constructor
  · intro data' hne
    cases hv : is_chain_valid H (l1 ++ bp :: { bi with data := data' } :: l2) with
    | false => rfl
    | true =>
      exfalso
      have hpair := valid_imp_pairOK H l1 l2 bp { bi with data := data' } hv
      unfold pairOK at hpair
      rcases andE hpair with ⟨h1, _⟩
      have : bi.hash = calculate_hash H { bi with data := data' } := eq_of_beq h1
      exact hne (this ▸ rfl)
  · intro p' hne
    cases hv : is_chain_valid H (l1 ++ bp :: { bi with previous_hash := p' } :: l2) with
    | false => rfl
    | true =>
      exfalso
      have hpair := valid_imp_pairOK H l1 l2 bp { bi with previous_hash := p' } hv
      unfold pairOK at hpair
      rcases andE hpair with ⟨_, h2⟩
      exact hne (eq_of_beq h2)

/-- C7 witness: a concrete valid two-block chain under the injective digest
stand-in; tampering with block 1's payload, or with its previous_hash,
each invalidates the chain. -/
theorem ledger_tamper_detected_witness :
    is_chain_valid digestW
      [genesisW, { attBlockW with data := [("type", "tampered")] }] = false ∧
    is_chain_valid digestW
      [genesisW, { attBlockW with previous_hash := "X" }] = false :=
  have h := ledger_tamper_detected digestW [] [] genesisW attBlockW (by decide)
  ⟨h.1 [("type", "tampered")] (by decide), h.2 "X" (by decide)⟩

theorem validFrom_hash_congr (H : String → String) :
    ∀ (l : List Block) (p p' : Block), p.hash = p'.hash →
      validFrom H p l = validFrom H p' l := by
  intro l
  cases l with
  | nil => intro p p' _; rfl
  | cons cur rest =>
    intro p p' hpp
    unfold validFrom
    unfold pairOK
    rw [hpp]

/-- C10: `is_chain_valid` only examines blocks at index ≥ 1, so (i) every
single-block chain validates unconditionally, and (ii) replacing the genesis
block's payload (stored hash left unchanged) in any chain that validates
leaves the chain validating — genesis payload tampering is undetected. -/
theorem genesis_block_never_rechecked :
    (∀ (H : String → String) (b : Block), is_chain_valid H [b] = true) ∧
    (∀ (H : String → String) (b0 : Block) (rest : List Block)
       (data' : List (String × String)),
       is_chain_valid H (b0 :: rest) = true →
       is_chain_valid H ({ b0 with data := data' } :: rest) = true) := by
  constructor
  · intro H b; rfl
  · intro H b0 rest data' h
    have h' : validFrom H b0 rest = true := h
    show validFrom H { b0 with data := data' } rest = true
    rw [validFrom_hash_congr H rest { b0 with data := data' } b0 rfl]
    exact h' 

/-- C10 witness: the singleton chain `[genesisW]` validates, and replacing
the genesis payload inside the valid chain `[genesisW, attBlockW]` still
validates. -/
theorem genesis_block_never_rechecked_witness :
    is_chain_valid digestW [genesisW] = true ∧
    is_chain_valid digestW
      [{ genesisW with data := [("type", "evil")] }, attBlockW] = true :=
  ⟨genesis_block_never_rechecked.1 digestW genesisW,
   genesis_block_never_rechecked.2 digestW genesisW [attBlockW]
     [("type", "evil")] (by decide)⟩

/-! ## Session-model helper lemmas -/

theorem countRows_eq_zero_iff (user date : String) (l : List AttRow) :
    countRows user date l = 0 ↔
      (l.any fun r => r.user_id == user && r.date == date) = false := by
  induction l with
  | nil => simp [countRows]
  | cons r rest ih =>
    unfold countRows at ih ⊢
    by_cases hp : (r.user_id == user && r.date == date) = true
    · simp [List.filter_cons, List.any_cons, hp]
    · have hp' : (r.user_id == user && r.date == date) = false :=
        Bool.not_eq_true _ ▸ (by simpa using hp)
      simp [List.filter_cons, List.any_cons, hp', ih]

theorem countRows_append_self (user date : String) (l : List AttRow) :
    countRows user date (l ++ [⟨user, date⟩]) = countRows user date l + 1 := by
  unfold countRows
  rw [List.filter_append]
  simp

theorem insertUser_contains_self (u : String) (l : List String) :
    (insertUser u l).contains u = true := by
  unfold insertUser
  by_cases h : l.contains u = true
  · rw [h]; simpa using h
  · have h' : l.contains u = false := by simpa using h
    rw [h']
    simp

theorem markStep_noop (user date : String) (b : Bool) (st : SessionState)
    (h : st.recognized_today.contains user = true) :
    markStep user date b st = st := by
  unfold markStep
  rw [h]
  simp

theorem preCheckDb_of_marked (user date : String) (st : SessionState)
    (h : (st.db.any fun r => r.user_id == user && r.date == date) = true) :
    preCheckDb user date st =
      { st with recognized_today := insertUser user st.recognized_today } := by
  unfold preCheckDb
  rw [h]
  simp

theorem marked_preserved (user date : String) (b : Bool) (st : SessionState)
    (h : MarkedState user date st) :
    MarkedState user date (processMatchedFrame user date b st) := by
  obtain ⟨hdb, hld, hrec⟩ := h
  have hany : (st.db.any fun r => r.user_id == user && r.date == date) = true := by
    rcases hb : st.db.any fun r => r.user_id == user && r.date == date with _ | _
    · rw [(countRows_eq_zero_iff user date st.db).mpr hb] at hdb
      exact absurd hdb (by norm_num)
    · rfl
  unfold processMatchedFrame
  rw [preCheckDb_of_marked user date st hany]
  rw [markStep_noop user date b _ (insertUser_contains_self user st.recognized_today)]
  exact ⟨hdb, hld, insertUser_contains_self user st.recognized_today⟩

theorem processMatchedFrame_clean_false (user date : String) (st : SessionState)
    (h : CleanState user date st) :
    processMatchedFrame user date false st = st := by
  obtain ⟨hdb, _, _⟩ := h
  have hany := (countRows_eq_zero_iff user date st.db).mp hdb
  unfold processMatchedFrame preCheckDb
  rw [hany]
  simp only [Bool.false_eq_true, if_false]
  unfold markStep
  simp

theorem processMatchedFrame_clean_true (user date : String) (st : SessionState)
    (h : CleanState user date st) :
    MarkedState user date (processMatchedFrame user date true st) := by
  obtain ⟨hdb, hld, hrec⟩ := h
  have hany := (countRows_eq_zero_iff user date st.db).mp hdb
  unfold processMatchedFrame preCheckDb
  rw [hany]
  simp only [Bool.false_eq_true, if_false]
  unfold markStep mark_attendance
  rw [hrec, hany]
  simp only [Bool.not_false, Bool.and_true, if_true, Bool.false_eq_true, if_false]
  refine ⟨?_, ?_, insertUser_contains_self user st.recognized_today⟩
  · rw [countRows_append_self, hdb]
  · rw [countRows_append_self, hld]

theorem runSession_marked (user date : String) (frames : List Bool) :
    ∀ st : SessionState, MarkedState user date st →
      MarkedState user date (runSession user date st frames) := by
  induction frames with
  | nil => intro st h; exact h
  | cons b rest ih =>
    intro st h
    unfold runSession
    exact ih _ (marked_preserved user date b st h)

/-! ## C1 — at-most-once attendance -/

/-- C1: starting from a state in which `(user, date)` has no attendance row,
no ledger payload and is not in the in-session set, any same-day sequence of
processed frames produces exactly one attendance row and exactly one ledger
payload for `(user, date)` if the stable-and-live condition held on at least
one frame, and none otherwise — regardless of how many frames re-enter the
stable-and-live condition. -/
theorem at_most_once_attendance (user date : String) (frames : List Bool)
    (st : SessionState) (h : CleanState user date st) :
    countRows user date (runSession user date st frames).db =
      (if frames.contains true then 1 else 0) ∧
    countRows user date (runSession user date st frames).ledger =
      (if frames.contains true then 1 else 0) := by
  induction frames generalizing st with
  | nil =>
    rw [show ([] : List Bool).contains true = false from rfl]
    simp only [Bool.false_eq_true, if_false, runSession]
    exact ⟨h.1, h.2.1⟩
  | cons b rest ih =>
    cases b with
    | false =>
      unfold runSession
      rw [processMatchedFrame_clean_false user date st h]
      rw [show (false :: rest).contains true = rest.contains true from rfl]
      exact ih st h
    | true =>
      unfold runSession
      have hm := processMatchedFrame_clean_true user date st h
      have hrun := runSession_marked user date rest _ hm
      rw [show (true :: rest).contains true = true from rfl]
      simp only [if_true]
      exact ⟨hrun.1, hrun.2.1⟩

/-- C1 witness: an empty-day start and frames miss/hit/hit yield exactly one
row and one ledger payload. -/
theorem at_most_once_attendance_witness :
    countRows "u1" "d1"
      (runSession "u1" "d1" ⟨[], [], []⟩ [false, true, true]).db = 1 ∧
    countRows "u1" "d1"
      (runSession "u1" "d1" ⟨[], [], []⟩ [false, true, true]).ledger = 1 :=
  have h := at_most_once_attendance "u1" "d1" [false, true, true] ⟨[], [], []⟩
    ⟨rfl, rfl, rfl⟩
  ⟨h.1, h.2⟩

/-! ## C9 — duplicate-day conflict handling -/

/-- C9 counterexample to the claim as stated: in the race state where a
conflicting row is already persisted but the identity is not yet in the
in-session set, the write fails with "Already marked today" and
`recognized_today` is NOT updated — the code adds to the set only on a
successful write. -/
theorem recognized_today_not_updated_on_conflict :
    (mark_attendance [AttRow.mk "u1" "d1"] "u1" "d1").2.1 = false ∧
    (mark_attendance [AttRow.mk "u1" "d1"] "u1" "d1").2.2 = "Already marked today" ∧
    (markStep "u1" "d1" true ⟨[AttRow.mk "u1" "d1"], [], []⟩).recognized_today = [] := by
  decide

/-- C9 (amended): a duplicate-day conflict is not treated as an error —
`mark_attendance` returns `(False, "Already marked today")` and leaves the
table unchanged — but the in-session set is updated only on a successful
write at the write site; it is the per-frame database pre-check that adds
the identity to the set whenever a record exists, after which the frame path
touches neither the table nor the ledger, so no further marking attempts
occur. -/
theorem conflict_is_already_satisfied (user date : String) (st : SessionState)
    (b : Bool)
    (h : (st.db.any fun r => r.user_id == user && r.date == date) = true) :
    mark_attendance st.db user date = (st.db, false, "Already marked today") ∧
    (processMatchedFrame user date b st).db = st.db ∧
    (processMatchedFrame user date b st).ledger = st.ledger ∧
    (processMatchedFrame user date b st).recognized_today.contains user = true := by
  have hmark : mark_attendance st.db user date =
      (st.db, false, "Already marked today") := by
    unfold mark_attendance
    rw [h]
    simp
  have hframe : processMatchedFrame user date b st =
      { st with recognized_today := insertUser user st.recognized_today } := by
    unfold processMatchedFrame
    rw [preCheckDb_of_marked user date st h]
    exact markStep_noop user date b _
      (insertUser_contains_self user st.recognized_today)
  rw [hframe]
  exact ⟨hmark, rfl, rfl, insertUser_contains_self user st.recognized_today⟩

/-- C9 witness: with the row already persisted, the frame path reports the
conflict reason, appends nothing to the ledger, and puts the identity in the
in-session set. -/
theorem conflict_is_already_satisfied_witness :
    mark_attendance [AttRow.mk "u1" "d1"] "u1" "d1" =
      ([AttRow.mk "u1" "d1"], false, "Already marked today") ∧
    (processMatchedFrame "u1" "d1" true ⟨[AttRow.mk "u1" "d1"], [], []⟩).ledger = [] ∧
    (processMatchedFrame "u1" "d1" true
      ⟨[AttRow.mk "u1" "d1"], [], []⟩).recognized_today.contains "u1" = true :=
  have h := conflict_is_already_satisfied "u1" "d1" ⟨[AttRow.mk "u1" "d1"], [], []⟩
    true (by decide)
  ⟨h.1, h.2.2.1, h.2.2.2⟩

/-! ## C8 — storage-layer uniqueness -/

/-- C8 counterexample: the `attendance` schema carries no uniqueness
constraint over `(user_id, date)`: two distinct rows with identical
`user_id` and `date` (differing only in `id`) satisfy every uniqueness
constraint the schema declares, so the storage layer admits them both. -/
theorem attendance_schema_lacks_day_uniqueness :
    schemaEnforcesUniqueOn attendanceSchema ["user_id", "date"] = false ∧
    tableAdmits attendanceSchema [dupRowA, dupRowB] = true ∧
    rowGet dupRowA "user_id" = rowGet dupRowB "user_id" ∧
    rowGet dupRowA "date" = rowGet dupRowB "date" ∧
    dupRowA ≠ dupRowB := by
  decide

/-- C8 (amended): the storage layer itself enforces uniqueness of `user_id`
(PRIMARY KEY) and `registration_number` (UNIQUE) for the users table, but
declares no uniqueness constraint on `(user_id, date)` for attendance;
at-most-one-attendance-per-day is guaranteed only by `mark_attendance`'s
check-then-insert, which preserves it under sequential access.  Attendance
and user writes remain atomic per row: `mark_attendance` either appends the
complete row and reports success or leaves the table unchanged, and
`add_user` either performs the complete `INSERT OR REPLACE` upsert and
reports success or leaves the table unchanged. -/
theorem storage_uniqueness_as_implemented :
    schemaEnforcesUniqueOn usersSchema ["user_id"] = true ∧
    schemaEnforcesUniqueOn usersSchema ["registration_number"] = true ∧
    schemaEnforcesUniqueOn attendanceSchema ["user_id", "date"] = false ∧
    (∀ (db : List AttRow) (user date : String),
       countRows user date db ≤ 1 →
       countRows user date (mark_attendance db user date).1 ≤ 1) ∧
    (∀ (db : List AttRow) (user date : String),
       (mark_attendance db user date).1 = db ∨
       ((mark_attendance db user date).1 = db ++ [⟨user, date⟩] ∧
        (mark_attendance db user date).2.1 = true)) ∧
    (∀ (users : List UserRow) (uid nm : String) (regno : Option String),
       (add_user users uid nm regno).1 = users ∨
       ((add_user users uid nm regno).1 =
          (users.filter fun u => !(u.user_id == uid)) ++ [⟨uid, nm, regno⟩] ∧
        (add_user users uid nm regno).2 = true)) := by
  refine ⟨by decide, by decide, by decide, ?_, ?_, ?_⟩
  · intro db user date h
    unfold mark_attendance
    cases hany : db.any fun r => r.user_id == user && r.date == date with
    | false =>
      simp only [Bool.false_eq_true, if_false]
      show countRows user date (db ++ [AttRow.mk user date]) ≤ 1
      rw [countRows_append_self, (countRows_eq_zero_iff user date db).mpr hany]
    | true =>
      simp only [if_true]
      exact h
  · intro db user date
    unfold mark_attendance
    by_cases hany : (db.any fun r => r.user_id == user && r.date == date) = true
    · rw [if_pos hany]
      exact Or.inl rfl
    · rw [if_neg hany]
      exact Or.inr ⟨rfl, rfl⟩
  · intro users uid nm regno
    unfold add_user
    by_cases hc : (match regno with
        | none => false
        | some r => users.any fun u => u.registration_number == some r) = true
    · rw [if_pos hc]
      exact Or.inl rfl
    · rw [if_neg hc]
      exact Or.inr ⟨rfl, rfl⟩

/-- C8 witness: inserting a duplicate day for a user keeps the row count at
one; a fresh attendance write appends the whole row with success; a fresh
user registration upserts the whole row with success. -/
theorem storage_uniqueness_as_implemented_witness :
    countRows "u1" "d1" (mark_attendance [AttRow.mk "u1" "d1"] "u1" "d1").1 ≤ 1 ∧
    ((mark_attendance [] "u1" "d1").1 = [] ∨
     ((mark_attendance [] "u1" "d1").1 = [] ++ [AttRow.mk "u1" "d1"] ∧
      (mark_attendance [] "u1" "d1").2.1 = true)) ∧
    ((add_user [] "u1" "Alice" (some "R1")).1 = [] ∨
     ((add_user [] "u1" "Alice" (some "R1")).1 =
        (List.filter (fun u => !(u.user_id == "u1")) []) ++
          [UserRow.mk "u1" "Alice" (some "R1")] ∧
      (add_user [] "u1" "Alice" (some "R1")).2 = true)) :=
  ⟨storage_uniqueness_as_implemented.2.2.2.1 [AttRow.mk "u1" "d1"] "u1" "d1" (by decide),
   storage_uniqueness_as_implemented.2.2.2.2.1 [] "u1" "d1",
   storage_uniqueness_as_implemented.2.2.2.2.2 [] "u1" "Alice" (some "R1")⟩
